import Mathlib

set_option autoImplicit false

/-!
Verification development for the `bip300_monitor` validator.

The Rust sources (`src/server.rs`, `src/types.rs`, `src/main.rs`) are embedded
shallowly: machine integers become `Nat` with explicit wrap-around where the
source wraps, redb tables become association lists with replace-on-insert
semantics, and every fallible or panicking path returns an explicit error
value through `Except`.  A returned `Except.error` models the Rust control
flow in which the open write transaction is dropped without `commit()`, i.e.
the persistent store keeps its pre-call contents.
-/

namespace Bip300

/-- Byte strings and 32-byte hashes are modelled as lists of naturals. -/
abbrev Hash256 := List Nat

/-- Modelled from the spec: `SHA256d` ("double application of SHA-256, the
canonical Bitcoin hashing function") is provided by the external
`bip300_messages` crate and is not part of this repository's sources.  The
properties verified here depend only on the hash being a deterministic
function of the preimage that separates the concrete preimages involved, so
it is modelled as an injective length-tagged copy of the preimage rather
than as the SHA-256 compression function. -/
def sha256d (data : List Nat) : Hash256 :=
  data.length :: data

/-- `SidechainProposal` from `src/server.rs`. -/
structure SidechainProposal where
  sidechain_number : Nat
  data : List Nat
  vote_count : Nat
  proposal_height : Nat
deriving Repr, DecidableEq

/-- `Sidechain` from `src/server.rs`. -/
structure Sidechain where
  sidechain_number : Nat
  data : List Nat
  vote_count : Nat
  proposal_height : Nat
  activation_height : Nat
deriving Repr, DecidableEq

/-- `Bundle` from `src/server.rs`. -/
structure Bundle where
  bundle_txid : Hash256
  vote_count : Nat
deriving Repr, DecidableEq

/-- `M4AckBundles` variants of the coinbase message type (external
`bip300_messages` crate; shape fixed by spec section 4.A). -/
inductive M4AckBundles where
  | LeadingBy50
  | RepeatPrevious
  | OneByte (upvotes : List Nat)
  | TwoBytes (upvotes : List Nat)
deriving Repr, DecidableEq

/-- `CoinbaseMessage` variants (external `bip300_messages` crate; shape fixed
by spec section 4.A). -/
inductive CoinbaseMessage where
  | M1ProposeSidechain (sidechain_number : Nat) (data : List Nat)
  | M2AckSidechain (sidechain_number : Nat) (data_hash : Hash256)
  | M3ProposeBundle (sidechain_number : Nat) (bundle_txid : Hash256)
  | M4AckBundles (m4 : M4AckBundles)
deriving Repr, DecidableEq

def ABSTAIN_ONE_BYTE : Nat := 0xFF
def ALARM_ONE_BYTE : Nat := 0xFE
def ABSTAIN_TWO_BYTES : Nat := 0xFFFF
def ALARM_TWO_BYTES : Nat := 0xFFFE

/-- Modelled from the spec: script payloads are produced and parsed by the
external `bip300_messages` message codec (spec section 4.A), which this
repository only calls.  Per the spec, `parse` returns the typed message or a
structured parse error, and `encode` is a total inverse of `parse`
(round-trip property).  A script is therefore modelled as either a valid
encoding of some message or an arbitrary byte string on which `parse`
fails. -/
inductive Script where
  | coinbaseMsg (m : CoinbaseMessage)
  | raw (bytes : List Nat)
deriving Repr, DecidableEq

/-- Modelled from the spec: `parse_coinbase_script` of the external
`bip300_messages` crate, restricted to the interface the applier uses
(`Ok(message)` or a parse error that is forwarded as a fatal
block-application error). -/
def parse_coinbase_script : Script → Except (List Nat) CoinbaseMessage
  | .coinbaseMsg m => .ok m
  | .raw bytes => .error bytes

/-- Modelled from the spec: message encoding (`message.into()` on a script),
the total inverse of `parse_coinbase_script`. -/
def encode_coinbase_message (m : CoinbaseMessage) : Script :=
  .coinbaseMsg m

/-- Whether parsing a script as a coinbase message fails. -/
def parseFails (script : Script) : Bool :=
  match parse_coinbase_script script with
  | .ok _ => false
  | .error _ => true

structure OutPoint where
  txid : Hash256
  vout : Nat
deriving Repr, DecidableEq

structure TxOut where
  value : Nat
  script_pubkey : Script
deriving Repr, DecidableEq

structure Transaction where
  input : List OutPoint
  output : List TxOut
deriving Repr, DecidableEq

structure Block where
  txdata : List Transaction
deriving Repr, DecidableEq

/-- Association-list lookup, mirroring `table.get(k)` of a redb table. -/
def tableGet {α β : Type} [DecidableEq α] : List (α × β) → α → Option β
  | [], _ => none
  | (k, v) :: rest, j => if k = j then some v else tableGet rest j

/-- Association-list insert with replace-on-collision, mirroring
`table.insert(k, v)` of a redb table. -/
def tableInsert {α β : Type} [DecidableEq α] : List (α × β) → α → β → List (α × β)
  | [], j, w => [(j, w)]
  | (k, v) :: rest, j, w => if k = j then (j, w) :: rest else (k, v) :: tableInsert rest j w

/-- Association-list removal, mirroring `table.remove(k)` of a redb table. -/
def tableRemove {α β : Type} [DecidableEq α] : List (α × β) → α → List (α × β)
  | [], _ => []
  | (k, v) :: rest, j => if k = j then rest else (k, v) :: tableRemove rest j

/-- The logical contents of the redb database: one field per table definition
in `src/server.rs` (the five unused sharded `deposit_txos_*` tables, which no
code path reads or writes, are omitted; no table for CTIPs is defined
anywhere in the sources). -/
structure Store where
  data_hash_to_sidechain_proposal : List (Hash256 × SidechainProposal)
  sidechain_number_to_sidechain : List (Nat × Sidechain)
  sidechain_number_to_bundles : List (Nat × List Bundle)
  previous_votes : List Hash256
  leading_by_50 : List Hash256
deriving Repr, DecidableEq

def emptyStore : Store :=
  { data_hash_to_sidechain_proposal := []
    sidechain_number_to_sidechain := []
    sidechain_number_to_bundles := []
    previous_votes := []
    leading_by_50 := [] }

/-- Failure modes of block application.  `parseFailed` is the `Err` branch of
the parse match; `notImplemented` models the `todo!()` panics;
`underflow` models the u32 arithmetic-underflow panic of
`height - sidechain_proposal.proposal_height`; `missingCoinbase` models the
index panic of `block.txdata[0]` on a block without transactions.  Every
error leaves the store untouched (the write transaction is never
committed). -/
inductive Err where
  | parseFailed (raw : List Nat)
  | notImplemented
  | underflow
  | missingCoinbase
deriving Repr, DecidableEq

def USED_MAX_AGE : Nat := 26300
def USED_THRESHOLD : Nat := 13150
def UNUSED_MAX_AGE : Nat := 2016
def UNUSED_THRESHOLD : Nat := UNUSED_MAX_AGE - 201

/-- The body of the ALARM branch in the `M4AckBundles` arms of
`connect_block`: `if bundle.vote_count > 0 { bundle.vote_count -= 1; }`. -/
def alarmDecrement (b : Bundle) : Bundle :=
  if b.vote_count > 0 then { b with vote_count := b.vote_count - 1 } else b

/-- One iteration of the `for (sidechain_number, vote) in upvotes.iter().enumerate()`
loops in the `M4AckBundles` arm of `connect_block`.  The `OneByte` and
`TwoBytes` loop bodies in the source are textually identical up to the
sentinel constants, so both are obtained from this definition by
instantiating `abstain` and `alarm`.  `idx % 256` mirrors the
`sidechain_number as u8` cast; `(vote_count + 1) % 65536` mirrors the u16
increment `bundle.vote_count += 1`. -/
def m4BundleStep (abstain alarm : Nat) (s : Store) (idx vote : Nat) : Store :=
  if vote = abstain then s
  else
    match tableGet s.sidechain_number_to_bundles (idx % 256) with
    | none => s
    | some bundles =>
        let bundles :=
          if vote = alarm then
            bundles.map alarmDecrement
          else
            match bundles.get? vote with
            | some b =>
                bundles.set vote { b with vote_count := (b.vote_count + 1) % 65536 }
            | none => bundles
        { s with sidechain_number_to_bundles :=
            tableInsert s.sidechain_number_to_bundles (idx % 256) bundles }

/-- The full enumerate loop of an `M4AckBundles` `OneByte`/`TwoBytes` arm,
starting at index `idx`. -/
def m4BundleLoop (abstain alarm : Nat) (s : Store) : List Nat → Nat → Store
  | [], _ => s
  | vote :: rest, idx => m4BundleLoop abstain alarm (m4BundleStep abstain alarm s idx vote) rest (idx + 1)

/-- Dispatch on a single parsed coinbase message: the body of the `Ok`
branch of the output loop in `Bip300::connect_block`
(`src/server.rs`). -/
def connectMessage (height : Nat) (s : Store) : CoinbaseMessage → Except Err Store
  | .M1ProposeSidechain sidechain_number data =>
      let data_hash := sha256d data
      if (tableGet s.data_hash_to_sidechain_proposal data_hash).isSome then
        .ok s
      else
        let sidechain_proposal : SidechainProposal :=
          { sidechain_number := sidechain_number
            data := data
            vote_count := 0
            proposal_height := height }
        .ok { s with data_hash_to_sidechain_proposal :=
                tableInsert s.data_hash_to_sidechain_proposal data_hash sidechain_proposal }
  | .M2AckSidechain sidechain_number data_hash =>
      match tableGet s.data_hash_to_sidechain_proposal data_hash with
      | none => .ok s
      | some p =>
          if p.sidechain_number = sidechain_number then
            let p := { p with vote_count := (p.vote_count + 1) % 65536 }
            let s1 := { s with data_hash_to_sidechain_proposal :=
                          tableInsert s.data_hash_to_sidechain_proposal data_hash p }
            if height < p.proposal_height then
              .error .underflow
            else
              let sidechain_proposal_age := height - p.proposal_height
              let used := (tableGet s1.sidechain_number_to_sidechain p.sidechain_number).isSome
              let failed :=
                (used ∧ sidechain_proposal_age > USED_MAX_AGE ∧ p.vote_count ≤ USED_THRESHOLD) ∨
                (¬used ∧ sidechain_proposal_age > UNUSED_MAX_AGE ∧ p.vote_count ≤ UNUSED_THRESHOLD)
              let succeeded :=
                (used ∧ p.vote_count > USED_THRESHOLD) ∨
                (¬used ∧ p.vote_count > UNUSED_THRESHOLD)
              if failed then
                .ok { s1 with data_hash_to_sidechain_proposal :=
                        tableRemove s1.data_hash_to_sidechain_proposal data_hash }
              else if succeeded then
                if p.vote_count > USED_THRESHOLD then
                  let sidechain : Sidechain :=
                    { sidechain_number := p.sidechain_number
                      data := p.data
                      proposal_height := p.proposal_height
                      activation_height := height
                      vote_count := p.vote_count }
                  .ok { s1 with
                          sidechain_number_to_sidechain :=
                            tableInsert s1.sidechain_number_to_sidechain
                              sidechain.sidechain_number sidechain
                          data_hash_to_sidechain_proposal :=
                            tableRemove s1.data_hash_to_sidechain_proposal data_hash }
                else
                  .ok s1
              else
                .ok s1
          else
            .ok s
  | .M3ProposeBundle sidechain_number bundle_txid =>
      match tableGet s.sidechain_number_to_bundles sidechain_number with
      | none => .ok s
      | some bundles =>
          let bundle : Bundle := { bundle_txid := bundle_txid, vote_count := 0 }
          let bundles1 := bundles ++ [bundle]
          .ok { s with sidechain_number_to_bundles :=
                  tableInsert s.sidechain_number_to_bundles sidechain_number bundles1 }
  | .M4AckBundles .LeadingBy50 => .error .notImplemented
  | .M4AckBundles .RepeatPrevious => .error .notImplemented
  | .M4AckBundles (.OneByte upvotes) =>
      .ok (m4BundleLoop ABSTAIN_ONE_BYTE ALARM_ONE_BYTE s upvotes 0)
  | .M4AckBundles (.TwoBytes upvotes) =>
      .ok (m4BundleLoop ABSTAIN_TWO_BYTES ALARM_TWO_BYTES s upvotes 0)

/-- The `for output in &coinbase.output` loop of `Bip300::connect_block`. -/
def connectOutputs (height : Nat) : List TxOut → Store → Except Err Store
  | [], s => .ok s
  | o :: rest, s =>
      match parse_coinbase_script o.script_pubkey with
      | .error err => .error (.parseFailed err)
      | .ok message =>
          match connectMessage height s message with
          | .error e => .error e
          | .ok s1 => connectOutputs height rest s1

/-- `Bip300::connect_block` (`src/server.rs`): take the block's first
transaction as the coinbase, run every coinbase output through the parser
and the message dispatch inside one write transaction, and commit at the
end.  An error result models the transaction being dropped uncommitted. -/
def connect_block (block : Block) (height : Nat) (s : Store) : Except Err Store :=
  match block.txdata with
  | [] => .error .missingCoinbase
  | coinbase :: _ => connectOutputs height coinbase.output s

/-- `Bip300::disconnect_block` (`src/server.rs`), whose entire body is
`todo!()`: it unconditionally panics and never touches the store. -/
def disconnect_block (_block : Block) (_s : Store) : Except Err Store :=
  .error .notImplemented

/-- The generated `IsValidRequest` protobuf message (no fields are read by
the handler). -/
structure IsValidRequest where
  payload : List Nat
deriving Repr, DecidableEq

/-- The generated `IsValidResponse` protobuf message. -/
structure IsValidResponse where
  valid : Bool
deriving Repr, DecidableEq

/-- The `Validator::is_valid` handler (`src/server.rs`): it builds
`IsValidResponse { valid: true }` without looking at the request or the
database and returns it. -/
def is_valid (_request : IsValidRequest) : IsValidResponse :=
  { valid := true }

/-- The generated `DisconnectBlockRequest` protobuf message. -/
structure DisconnectBlockRequest where
  block : List Nat
deriving Repr, DecidableEq

/-- The generated `DisconnectBlockResponse` protobuf message (empty). -/
structure DisconnectBlockResponse where
deriving Repr, DecidableEq

/-- A tonic `Status` error (never produced by the handlers modelled
here). -/
inductive GrpcStatus where
  | internalErr (msg : List Nat)
deriving Repr, DecidableEq

/-- The `Validator::disconnect_block` RPC handler (`src/server.rs`): its body
builds `DisconnectBlockResponse {}` and returns `Ok`; it neither reads the
request nor calls `Bip300::disconnect_block`, so the store is passed through
untouched. -/
def disconnect_block_rpc (_request : DisconnectBlockRequest) (s : Store) :
    Except GrpcStatus DisconnectBlockResponse × Store :=
  (.ok {}, s)

/-- `ProposeSidechain` entry of a `GetCoinbasePsbtRequest` (protobuf:
`sidechain_number` is a u32 field, narrowed with `as u8` by the handler). -/
structure ProposeSidechainReq where
  sidechain_number : Nat
  data : List Nat
deriving Repr, DecidableEq

/-- `AckSidechain` entry of a `GetCoinbasePsbtRequest`. -/
structure AckSidechainReq where
  sidechain_number : Nat
  data_hash : List Nat
deriving Repr, DecidableEq

/-- `ProposeBundle` entry of a `GetCoinbasePsbtRequest`. -/
structure ProposeBundleReq where
  sidechain_number : Nat
  bundle_txid : List Nat
deriving Repr, DecidableEq

/-- The `AckBundlesEnum` protobuf tag. -/
inductive AckBundlesTag where
  | RepeatPrevious
  | LeadingBy50
  | Upvotes
deriving Repr, DecidableEq

/-- The `ack_bundles` entry of a `GetCoinbasePsbtRequest`: a tag plus a list
of u32 upvote values. -/
structure AckBundlesReq where
  tag : AckBundlesTag
  upvotes : List Nat
deriving Repr, DecidableEq

/-- The generated `GetCoinbasePsbtRequest` protobuf message. -/
structure GetCoinbasePsbtRequest where
  propose_sidechains : List ProposeSidechainReq
  ack_sidechains : List AckSidechainReq
  propose_bundles : List ProposeBundleReq
  ack_bundles : Option AckBundlesReq
deriving Repr, DecidableEq

/-- Response of `get_coinbase_psbt`.  The handler consensus-encodes the
assembled transaction; since that encoding is injective and external to this
repository, the response carries the transaction itself. -/
structure GetCoinbasePsbtResponse where
  psbt : Transaction
deriving Repr, DecidableEq

/-- Process panics of the `Validator::get_coinbase_psbt` handler.  The Rust
handler has no error-return path at all: `panic!("upvote too large")` fires
on an upvote above `u16::MAX`, and the `try_into().unwrap()` calls on
`data_hash` / `bundle_txid` slices panic when the field is not exactly 32
bytes.  Each constructor below models one of those panics. -/
inductive RpcPanic where
  | upvoteTooLarge
  | badHashLen
deriving Repr, DecidableEq

/-- The first loop of the `Upvotes` arm in `get_coinbase_psbt`: scan the
upvote values, flag `two_bytes` as soon as a value exceeds `u8::MAX`, and
panic (`upvote too large`) on a value above `u16::MAX`. -/
def upvotesWidth : List Nat → Bool → Except RpcPanic Bool
  | [], two_bytes => .ok two_bytes
  | upvote :: rest, two_bytes =>
      let two_bytes := if upvote > 255 then true else two_bytes
      if upvote > 65535 then .error .upvoteTooLarge
      else upvotesWidth rest two_bytes

/-- The `for ack_sidechain in &request.ack_sidechains` loop: each
`data_hash` is converted with `as_slice().try_into().unwrap()`, which
panics unless it is exactly 32 bytes. -/
def ackSidechainMsgs : List AckSidechainReq → Except RpcPanic (List CoinbaseMessage)
  | [] => .ok []
  | a :: rest =>
      if a.data_hash.length = 32 then
        match ackSidechainMsgs rest with
        | .error e => .error e
        | .ok ms => .ok (.M2AckSidechain (a.sidechain_number % 256) a.data_hash :: ms)
      else .error .badHashLen

/-- The `for propose_bundle in &request.propose_bundles` loop: each
`bundle_txid` is converted with `as_slice().try_into().unwrap()`, which
panics unless it is exactly 32 bytes. -/
def proposeBundleMsgs : List ProposeBundleReq → Except RpcPanic (List CoinbaseMessage)
  | [] => .ok []
  | p :: rest =>
      if p.bundle_txid.length = 32 then
        match proposeBundleMsgs rest with
        | .error e => .error e
        | .ok ms => .ok (.M3ProposeBundle (p.sidechain_number % 256) p.bundle_txid :: ms)
      else .error .badHashLen

/-- The `Validator::get_coinbase_psbt` handler (`src/server.rs`): collect
M1/M2/M3 messages from the request lists in order, optionally append one M4
from `ack_bundles`, and wrap every message into a zero-value output of an
input-less transaction. -/
def get_coinbase_psbt (request : GetCoinbasePsbtRequest) :
    Except RpcPanic GetCoinbasePsbtResponse := do
  let m1s := request.propose_sidechains.map fun p =>
    CoinbaseMessage.M1ProposeSidechain (p.sidechain_number % 256) p.data
  let m2s ← ackSidechainMsgs request.ack_sidechains
  let m3s ← proposeBundleMsgs request.propose_bundles
  let m4s ← match request.ack_bundles with
    | none => pure ([] : List CoinbaseMessage)
    | some ack_bundles =>
        match ack_bundles.tag with
        | .RepeatPrevious => pure [CoinbaseMessage.M4AckBundles .RepeatPrevious]
        | .LeadingBy50 => pure [CoinbaseMessage.M4AckBundles .LeadingBy50]
        | .Upvotes => do
            let two_bytes ← upvotesWidth ack_bundles.upvotes false
            if two_bytes then
              pure [CoinbaseMessage.M4AckBundles (.TwoBytes ack_bundles.upvotes)]
            else
              pure [CoinbaseMessage.M4AckBundles (.OneByte ack_bundles.upvotes)]
  let messages := m1s ++ m2s ++ m3s ++ m4s
  let output := messages.map fun message =>
    { value := 0, script_pubkey := encode_coinbase_message message : TxOut }
  .ok { psbt := { input := [], output := output } }

/-- A block consisting of a single (coinbase) transaction whose outputs
carry the given coinbase messages, one per output, as assembled by
`get_coinbase_psbt` and consumed by `connect_block`. -/
def msgBlock (msgs : List CoinbaseMessage) : Block :=
  { txdata :=
      [{ input := []
         output := msgs.map fun m => { value := 0, script_pubkey := .coinbaseMsg m } }] }

/-- Sequential application of blocks at their heights, as driven by the
upstream node (spec section 5: blocks arrive in height order, each commit
before the next call). -/
def connect_chain (s : Store) : List (Block × Nat) → Except Err Store
  | [] => .ok s
  | (b, h) :: rest =>
      match connect_block b h s with
      | .ok s1 => connect_chain s1 rest
      | .error e => .error e

/-- `k` consecutive blocks starting at height `h`, each carrying a single
M2 ack for `(sn, dh)` in its coinbase. -/
def ackBlocks (sn : Nat) (dh : Hash256) : Nat → Nat → List (Block × Nat)
  | _, 0 => []
  | h, k + 1 => (msgBlock [.M2AckSidechain sn dh], h) :: ackBlocks sn dh (h + 1) k

/-- Every stored proposal was recorded at or below height `h` — the
precondition under which the u32 age subtraction in the M2 arm of
`connect_block` cannot underflow. -/
def proposalHeightsLE (s : Store) (h : Nat) : Prop :=
  ∀ e ∈ s.data_hash_to_sidechain_proposal, e.2.proposal_height ≤ h

instance (s : Store) (h : Nat) : Decidable (proposalHeightsLE s h) := by
  unfold proposalHeightsLE
  infer_instance

/-- C2: the claim asserts that `connect_block` processes non-coinbase
transactions carrying a drivechain output and replaces
`ctip_by_sidechain[s]`.  The source contradicts it: `connect_block` reads
only `block.txdata[0]` and the database schema contains no CTIP table at
all, so the result of applying a block is independent of every non-coinbase
transaction — in particular the scenario deposit transaction (spending the
old CTIP outpoint, producing a 150-sat drivechain output at vout 1) has no
effect whatsoever on the store. -/
theorem connect_block_ignores_noncoinbase (coinbase : Transaction)
    (rest1 rest2 : List Transaction) (height : Nat) (s : Store) :
    connect_block { txdata := coinbase :: rest1 } height s =
      connect_block { txdata := coinbase :: rest2 } height s := rfl

/-- C3: the claim asserts that `disconnect_block` after `connect_block` is
the identity on every table.  The source contradicts it:
`Bip300::disconnect_block` is `todo!()` — it panics unconditionally (here
the panic is the `Err.notImplemented` abort) and never restores
anything. -/
theorem disconnect_block_not_implemented (block : Block) (s : Store) :
    disconnect_block block s = .error .notImplemented := rfl

/-- C8: the `is_valid` handler returns `valid = true` unconditionally; it
inspects neither the request (the function ignores its argument) nor the
store (it does not take the store at all). -/
theorem is_valid_always_true (request : IsValidRequest) :
    is_valid request = { valid := true } := rfl

/-- C9: the `disconnect_block` RPC handler returns a success response and
passes the store through untouched; it never invokes
`Bip300::disconnect_block`. -/
theorem disconnect_block_rpc_noop (request : DisconnectBlockRequest) (s : Store) :
    disconnect_block_rpc request s = (.ok {}, s) := rfl

/-- C4: the claim asserts that a block whose coinbase carries two M2
messages for the same `(sidechain_number, data_hash)` is rejected with an
invariant-violation error and has no effect.  The source contradicts it
(the check is an unresolved `// TODO` comment): on a store holding the
proposal for `sha256d([0xAA])` with `vote_count = 0`, a coinbase with that
M2 twice is accepted (`Ok`) and both acks are counted, leaving
`vote_count = 2`. -/
theorem connect_block_duplicate_m2_counted :
    connect_block
        (msgBlock [.M2AckSidechain 5 (sha256d [0xAA]), .M2AckSidechain 5 (sha256d [0xAA])])
        101
        { emptyStore with data_hash_to_sidechain_proposal :=
            [(sha256d [0xAA],
              { sidechain_number := 5, data := [0xAA], vote_count := 0, proposal_height := 100 })] } =
      .ok
        { emptyStore with data_hash_to_sidechain_proposal :=
            [(sha256d [0xAA],
              { sidechain_number := 5, data := [0xAA], vote_count := 2, proposal_height := 100 })] } := by
  rfl

/-- Helper: a run of `k` single-M2 blocks at heights `h, h+1, …` against a
store holding exactly the `[0xAA]` proposal for slot 5 adds `k` to its vote
count and changes nothing else, as long as every block stays inside the
unused-slot age window and the count stays at or below `USED_THRESHOLD`
(the only bound at which the promotion arm of `connect_block` acts). -/
theorem s1_ack_run (k h v : Nat) (h100 : 100 ≤ h) (hage : h + k ≤ 2117) (hv : v + k ≤ 13150) :
    connect_chain
        { emptyStore with data_hash_to_sidechain_proposal :=
            [(sha256d [0xAA],
              { sidechain_number := 5, data := [0xAA], vote_count := v, proposal_height := 100 })] }
        (ackBlocks 5 (sha256d [0xAA]) h k) =
      .ok
        { emptyStore with data_hash_to_sidechain_proposal :=
            [(sha256d [0xAA],
              { sidechain_number := 5, data := [0xAA], vote_count := v + k, proposal_height := 100 })] } := by
  induction k generalizing h v with
  | zero => simp [ackBlocks, connect_chain]
  | succ k ih =>
      have hmod : (v + 1) % 65536 = v + 1 := Nat.mod_eq_of_lt (by omega)
      have hlt : ¬ (h < 100) := by omega
      have hage2 : ¬ (h - 100 > UNUSED_MAX_AGE) := by
        simp only [UNUSED_MAX_AGE]; omega
      have hinner : ¬ (v + 1 > USED_THRESHOLD) := by
        simp only [USED_THRESHOLD]; omega
      rw [ackBlocks, connect_chain]
      rw [show connect_block (msgBlock [.M2AckSidechain 5 (sha256d [0xAA])]) h
            { emptyStore with data_hash_to_sidechain_proposal :=
                [(sha256d [0xAA],
                  { sidechain_number := 5, data := [0xAA], vote_count := v, proposal_height := 100 })] } =
          .ok
            { emptyStore with data_hash_to_sidechain_proposal :=
                [(sha256d [0xAA],
                  { sidechain_number := 5, data := [0xAA], vote_count := v + 1, proposal_height := 100 })] } from ?_]
      · show connect_chain _ (ackBlocks 5 (sha256d [0xAA]) (h + 1) k) = _
        have hvk : v + (k + 1) = v + 1 + k := by omega
        rw [hvk]
        exact ih (h + 1) (v + 1) (by omega) (by omega) (by omega)
      · simp [connect_block, msgBlock, connectOutputs, parse_coinbase_script, connectMessage,
              tableGet, tableInsert, emptyStore, hmod, hlt, hage2, hinner]

/-- C1: the claim asserts that an M2 ack lifting an empty-slot proposal's
vote count above `UNUSED_THRESHOLD = 1815` promotes it to
`sidechain_by_number` and removes the proposal, and that scenario S1 (M1 for
slot 5 at height 100, then 1816 M2 acks) ends with `sidechain_by_number[5]`
populated and the proposal table empty.  The source contradicts it: the
promotion arm re-checks `vote_count > USED_THRESHOLD` (13150) even when the
slot is unoccupied, so the `succeeded` case for an empty slot takes no
action.  Running scenario S1 ends with the sidechain table still empty and
the proposal still stored with `vote_count = 1816`. -/
theorem connect_block_s1_no_promotion :
    connect_chain emptyStore
        ((msgBlock [.M1ProposeSidechain 5 [0xAA]], 100) :: ackBlocks 5 (sha256d [0xAA]) 101 1816) =
      .ok
        { emptyStore with data_hash_to_sidechain_proposal :=
            [(sha256d [0xAA],
              { sidechain_number := 5, data := [0xAA], vote_count := 1816, proposal_height := 100 })] } := by
  rw [connect_chain]
  rw [show connect_block (msgBlock [.M1ProposeSidechain 5 [0xAA]]) 100 emptyStore =
        .ok
          { emptyStore with data_hash_to_sidechain_proposal :=
              [(sha256d [0xAA],
                { sidechain_number := 5, data := [0xAA], vote_count := 0, proposal_height := 100 })] }
      from rfl]
  show connect_chain _ (ackBlocks 5 (sha256d [0xAA]) 101 1816) = _
  have := s1_ack_run 1816 101 0 (by omega) (by omega) (by omega)
  simpa using this

/-- Helper: if any output of the list fails to parse, the coinbase output
loop ends in an error (so the enclosing write transaction is never
committed). -/
theorem connectOutputs_parse_error (height : Nat) :
    ∀ (outs : List TxOut) (s : Store),
      (∃ o ∈ outs, parseFails o.script_pubkey = true) →
      ∃ e, connectOutputs height outs s = .error e := by
  intro outs
  induction outs with
  | nil => intro s h; simp at h
  | cons o rest ih =>
      intro s h
      rw [connectOutputs]
      cases hp : parse_coinbase_script o.script_pubkey with
      | error err => exact ⟨.parseFailed err, rfl⟩
      | ok m =>
          have hrest : ∃ o2 ∈ rest, parseFails o2.script_pubkey = true := by
            rcases h with ⟨o2, ho2, hfail⟩
            rcases List.mem_cons.mp ho2 with heq | hmem
            · subst heq
              rw [parseFails, hp] at hfail
              simp at hfail
            · exact ⟨o2, hmem, hfail⟩
          cases hc : connectMessage height s m with
          | error e => exact ⟨e, by simp [hc]⟩
          | ok s1 =>
              rcases ih s1 hrest with ⟨e, he⟩
              exact ⟨e, by simp [hc, he]⟩

/-- C6: if any coinbase output's script fails to parse as a coinbase
message, `connect_block` returns an error; the write transaction is dropped
without `commit()`, so no mutation staged by earlier outputs of the block
reaches the store (an `Except.error` result carries no post-state — the
caller keeps the pre-call store). -/
theorem connect_block_parse_error_aborts (coinbase : Transaction)
    (rest : List Transaction) (height : Nat) (s : Store)
    (hbad : ∃ o ∈ coinbase.output, parseFails o.script_pubkey = true) :
    ∃ e, connect_block { txdata := coinbase :: rest } height s = .error e := by
  rw [connect_block]
  exact connectOutputs_parse_error height coinbase.output s hbad

/-- C6 witness: a coinbase whose first output is a valid M1 and whose second
output is unparseable bytes is rejected as a whole. -/
theorem connect_block_parse_error_aborts_witness :
    (∃ o ∈ ({ input := []
              output := [{ value := 0, script_pubkey := .coinbaseMsg (.M1ProposeSidechain 5 [0xAA]) },
                         { value := 0, script_pubkey := .raw [1, 2, 3] }] } : Transaction).output,
       parseFails o.script_pubkey = true) ∧
    ∃ e, connect_block
        { txdata := [{ input := []
                       output := [{ value := 0, script_pubkey := .coinbaseMsg (.M1ProposeSidechain 5 [0xAA]) },
                                  { value := 0, script_pubkey := .raw [1, 2, 3] }] }] }
        7 emptyStore = .error e :=
  ⟨by decide, connect_block_parse_error_aborts _ [] 7 emptyStore (by decide)⟩


/-- Helper: lookup after replace-on-collision insert. -/
theorem tableGet_tableInsert {α β : Type} [DecidableEq α] (t : List (α × β)) (k j : α) (v : β) :
    tableGet (tableInsert t k v) j = if k = j then some v else tableGet t j := by
  induction t with
  | nil => simp [tableInsert, tableGet]
  | cons e rest ih =>
      obtain ⟨k1, v1⟩ := e
      rw [tableInsert]
      by_cases h1 : k1 = k
      · subst h1
        by_cases h2 : k1 = j
        · subst h2; simp [tableGet]
        · simp [tableGet, h2]
      · simp only [if_neg h1]
        by_cases h2 : k1 = j
        · subst h2
          have hkj : ¬ (k = k1) := fun h => h1 h.symm
          simp [tableGet, hkj]
        · simp [tableGet, h2, ih]

/-- Helper: one M4 loop iteration leaves every bundle list other than the
one at its own (cast) sidechain number untouched. -/
theorem m4BundleStep_get_ne (ab al : Nat) (s : Store) (idx vote i : Nat)
    (hne : idx % 256 ≠ i) :
    tableGet (m4BundleStep ab al s idx vote).sidechain_number_to_bundles i =
      tableGet s.sidechain_number_to_bundles i := by
  rw [m4BundleStep]
  by_cases h1 : vote = ab
  · simp [h1]
  · simp only [if_neg h1]
    cases hg : tableGet s.sidechain_number_to_bundles (idx % 256) with
    | none => rfl
    | some bundles => simp [tableGet_tableInsert, hne]

/-- Helper: the M4 loop leaves a bundle list untouched when none of its
iterations target that sidechain number. -/
theorem m4BundleLoop_get_ne (ab al : Nat) :
    ∀ (us : List Nat) (s : Store) (idx i : Nat),
      (∀ p, p < us.length → (idx + p) % 256 ≠ i) →
      tableGet (m4BundleLoop ab al s us idx).sidechain_number_to_bundles i =
        tableGet s.sidechain_number_to_bundles i := by
  intro us
  induction us with
  | nil => intro s idx i _; rfl
  | cons v rest ih =>
      intro s idx i h
      rw [m4BundleLoop]
      rw [ih (m4BundleStep ab al s idx v) (idx + 1) i ?_]
      · exact m4BundleStep_get_ne ab al s idx v i (by simpa using h 0 (by simp))
      · intro p hp
        have h2 : idx + 1 + p = idx + (p + 1) := by omega
        rw [h2]
        exact h (p + 1) (by simpa using Nat.succ_lt_succ hp)

/-- Helper: when position `p` of the upvote vector carries the ALARM
sentinel and at most 256 sidechains are addressed, the M4 loop replaces the
bundle list of sidechain `idx + p` by its pointwise saturating
decrement. -/
theorem m4BundleLoop_alarm (ab al : Nat) (hne : al ≠ ab) :
    ∀ (us : List Nat) (s : Store) (idx p : Nat) (bs : List Bundle),
      us.get? p = some al →
      idx + us.length ≤ 256 →
      tableGet s.sidechain_number_to_bundles (idx + p) = some bs →
      tableGet (m4BundleLoop ab al s us idx).sidechain_number_to_bundles (idx + p) =
        some (bs.map alarmDecrement) := by
  intro us
  induction us with
  | nil => intro s idx p bs hget _ _; simp at hget
  | cons v rest ih =>
      intro s idx p bs hget hlen hbs
      rw [m4BundleLoop]
      cases p with
      | zero =>
          have hv : v = al := by simpa using hget
          have hidx : idx % 256 = idx := Nat.mod_eq_of_lt (by simp at hlen; omega)
          have hbs2 : tableGet s.sidechain_number_to_bundles idx = some bs := by
            simpa using hbs
          have hstep : tableGet (m4BundleStep ab al s idx v).sidechain_number_to_bundles idx =
              some (bs.map alarmDecrement) := by
            rw [m4BundleStep]
            rw [if_neg (by rw [hv]; exact hne)]
            rw [hidx, hbs2]
            simp [hv, tableGet_tableInsert]
          rw [m4BundleLoop_get_ne ab al rest (m4BundleStep ab al s idx v) (idx + 1) (idx + 0) ?_]
          · simpa using hstep
          · intro q hq
            have hlt : idx + 1 + q < 256 := by simp at hlen; omega
            rw [Nat.mod_eq_of_lt hlt]
            omega
      | succ q =>
          have hstepget : tableGet (m4BundleStep ab al s idx v).sidechain_number_to_bundles
              (idx + (q + 1)) = some bs := by
            rw [m4BundleStep_get_ne]
            · exact hbs
            · have : idx % 256 ≤ idx := Nat.mod_le idx 256
              omega
          have h2 : idx + (q + 1) = idx + 1 + q := by omega
          rw [h2] at hstepget ⊢
          exact ih (m4BundleStep ab al s idx v) (idx + 1) q bs (by simpa using hget)
            (by simp at hlen ⊢; omega) hstepget

/-- Helper: pointwise description of the saturating alarm decrement. -/
theorem alarmDecrement_get (bs : List Bundle) (j : Nat) (b : Bundle)
    (hj : bs.get? j = some b) :
    ∃ b2, (bs.map alarmDecrement).get? j = some b2 ∧ b2.bundle_txid = b.bundle_txid ∧
      (0 < b.vote_count → b2.vote_count = b.vote_count - 1) ∧
      (b.vote_count = 0 → b2.vote_count = 0) := by
  refine ⟨alarmDecrement b, ?_, ?_, ?_, ?_⟩
  · simp only [List.get?_eq_getElem?] at hj ⊢
    rw [List.getElem?_map, hj]
    rfl
  · rw [alarmDecrement]; split <;> rfl
  · intro hpos; rw [alarmDecrement, if_pos hpos]
  · intro hzero; rw [alarmDecrement]; simp [hzero]

/-- C7: processing an M4 `OneByte` or `TwoBytes` message whose vote for
sidechain `i` is the ALARM sentinel (addressing at most 256 sidechains, so
the `as u8` cast aliases no slots) succeeds and replaces sidechain `i`'s
bundle list elementwise: every bundle with a positive vote count loses
exactly one vote, and every bundle already at zero stays at zero — the
guarded `vote_count -= 1` never wraps to `u16::MAX`. -/
theorem m4_alarm_saturates :
    (∀ (height : Nat) (s : Store) (upvotes : List Nat) (i : Nat) (bs : List Bundle),
       upvotes.length ≤ 256 →
       upvotes.get? i = some ALARM_ONE_BYTE →
       tableGet s.sidechain_number_to_bundles i = some bs →
       ∃ s2, connectMessage height s (.M4AckBundles (.OneByte upvotes)) = .ok s2 ∧
         ∃ bs2, tableGet s2.sidechain_number_to_bundles i = some bs2 ∧
           bs2.length = bs.length ∧
           ∀ j b, bs.get? j = some b →
             ∃ b2, bs2.get? j = some b2 ∧ b2.bundle_txid = b.bundle_txid ∧
               (0 < b.vote_count → b2.vote_count = b.vote_count - 1) ∧
               (b.vote_count = 0 → b2.vote_count = 0)) ∧
    (∀ (height : Nat) (s : Store) (upvotes : List Nat) (i : Nat) (bs : List Bundle),
       upvotes.length ≤ 256 →
       upvotes.get? i = some ALARM_TWO_BYTES →
       tableGet s.sidechain_number_to_bundles i = some bs →
       ∃ s2, connectMessage height s (.M4AckBundles (.TwoBytes upvotes)) = .ok s2 ∧
         ∃ bs2, tableGet s2.sidechain_number_to_bundles i = some bs2 ∧
           bs2.length = bs.length ∧
           ∀ j b, bs.get? j = some b →
             ∃ b2, bs2.get? j = some b2 ∧ b2.bundle_txid = b.bundle_txid ∧
               (0 < b.vote_count → b2.vote_count = b.vote_count - 1) ∧
               (b.vote_count = 0 → b2.vote_count = 0)) := by
  constructor
  · intro height s upvotes i bs hlen hvote hbs
    refine ⟨m4BundleLoop ABSTAIN_ONE_BYTE ALARM_ONE_BYTE s upvotes 0, rfl,
      bs.map alarmDecrement, ?_, by simp, ?_⟩
    · have := m4BundleLoop_alarm ABSTAIN_ONE_BYTE ALARM_ONE_BYTE (by decide) upvotes s 0 i bs
        hvote (by simpa using hlen) (by simpa using hbs)
      simpa using this
    · intro j b hj
      exact alarmDecrement_get bs j b hj
  · intro height s upvotes i bs hlen hvote hbs
    refine ⟨m4BundleLoop ABSTAIN_TWO_BYTES ALARM_TWO_BYTES s upvotes 0, rfl,
      bs.map alarmDecrement, ?_, by simp, ?_⟩
    · have := m4BundleLoop_alarm ABSTAIN_TWO_BYTES ALARM_TWO_BYTES (by decide) upvotes s 0 i bs
        hvote (by simpa using hlen) (by simpa using hbs)
      simpa using this
    · intro j b hj
      exact alarmDecrement_get bs j b hj

/-- C7 witness: an M4 `OneByte` whose only entry is ALARM, against a store
whose slot-0 bundle list holds vote counts 0 and 3. -/
theorem m4_alarm_saturates_witness :
    (([ALARM_ONE_BYTE] : List Nat).length ≤ 256) ∧
    (([ALARM_ONE_BYTE] : List Nat).get? 0 = some ALARM_ONE_BYTE) ∧
    (tableGet ({ emptyStore with sidechain_number_to_bundles :=
        [(0, [{ bundle_txid := [17], vote_count := 0 }, { bundle_txid := [18], vote_count := 3 }])] } :
        Store).sidechain_number_to_bundles 0 =
      some [{ bundle_txid := [17], vote_count := 0 }, { bundle_txid := [18], vote_count := 3 }]) ∧
    (∃ s2, connectMessage 7
        { emptyStore with sidechain_number_to_bundles :=
            [(0, [{ bundle_txid := [17], vote_count := 0 }, { bundle_txid := [18], vote_count := 3 }])] }
        (.M4AckBundles (.OneByte [ALARM_ONE_BYTE])) = .ok s2 ∧
      ∃ bs2, tableGet s2.sidechain_number_to_bundles 0 = some bs2 ∧
        bs2.length = ([{ bundle_txid := [17], vote_count := 0 },
          { bundle_txid := [18], vote_count := 3 }] : List Bundle).length ∧
        ∀ j b, ([{ bundle_txid := [17], vote_count := 0 },
            { bundle_txid := [18], vote_count := 3 }] : List Bundle).get? j = some b →
          ∃ b2, bs2.get? j = some b2 ∧ b2.bundle_txid = b.bundle_txid ∧
            (0 < b.vote_count → b2.vote_count = b.vote_count - 1) ∧
            (b.vote_count = 0 → b2.vote_count = 0)) :=
  ⟨by decide, by decide, by decide,
    m4_alarm_saturates.1 7 _ [ALARM_ONE_BYTE] 0 _ (by decide) (by decide) (by decide)⟩


/-- Helper: a successful lookup is a member of the table. -/
theorem tableGet_mem {α β : Type} [DecidableEq α] :
    ∀ (t : List (α × β)) (k : α) (v : β), tableGet t k = some v → (k, v) ∈ t := by
  intro t
  induction t with
  | nil =>
      intro k v h
      simp [tableGet] at h
  | cons e rest ih =>
      intro k v h
      obtain ⟨k1, v1⟩ := e
      rw [tableGet] at h
      by_cases h1 : k1 = k
      · rw [if_pos h1] at h
        subst h1
        obtain rfl : v1 = v := by simpa using h
        exact List.mem_cons_self _ _
      · rw [if_neg h1] at h
        exact List.mem_cons_of_mem _ (ih k v h)

/-- Helper: entries after an insert are the inserted pair or old entries. -/
theorem mem_tableInsert {α β : Type} [DecidableEq α] :
    ∀ (t : List (α × β)) (k : α) (v : β) (x : α × β),
      x ∈ tableInsert t k v → x = (k, v) ∨ x ∈ t := by
  intro t
  induction t with
  | nil =>
      intro k v x h
      simp [tableInsert] at h
      exact Or.inl h
  | cons e rest ih =>
      intro k v x h
      obtain ⟨k1, v1⟩ := e
      rw [tableInsert] at h
      by_cases h1 : k1 = k
      · rw [if_pos h1] at h
        rcases List.mem_cons.mp h with h2 | h2
        · exact Or.inl h2
        · exact Or.inr (List.mem_cons_of_mem _ h2)
      · rw [if_neg h1] at h
        rcases List.mem_cons.mp h with h2 | h2
        · exact Or.inr (h2 ▸ List.mem_cons_self _ _)
        · rcases ih k v x h2 with h3 | h3
          · exact Or.inl h3
          · exact Or.inr (List.mem_cons_of_mem _ h3)

/-- Helper: removal only drops entries. -/
theorem mem_tableRemove {α β : Type} [DecidableEq α] :
    ∀ (t : List (α × β)) (k : α) (x : α × β), x ∈ tableRemove t k → x ∈ t := by
  intro t
  induction t with
  | nil =>
      intro k x h
      simp [tableRemove] at h
  | cons e rest ih =>
      intro k x h
      obtain ⟨k1, v1⟩ := e
      rw [tableRemove] at h
      by_cases h1 : k1 = k
      · rw [if_pos h1] at h
        exact List.mem_cons_of_mem _ h
      · rw [if_neg h1] at h
        rcases List.mem_cons.mp h with h2 | h2
        · exact h2 ▸ List.mem_cons_self _ _
        · exact List.mem_cons_of_mem _ (ih k x h2)

/-- Helper: one M4 loop iteration never touches the proposal table. -/
theorem m4BundleStep_proposals (ab al : Nat) (s : Store) (idx vote : Nat) :
    (m4BundleStep ab al s idx vote).data_hash_to_sidechain_proposal =
      s.data_hash_to_sidechain_proposal := by
  rw [m4BundleStep]
  by_cases h1 : vote = ab
  · simp [h1]
  · simp only [if_neg h1]
    cases tableGet s.sidechain_number_to_bundles (idx % 256) with
    | none => rfl
    | some bundles => rfl

/-- Helper: the M4 loops never touch the proposal table. -/
theorem m4BundleLoop_proposals (ab al : Nat) :
    ∀ (us : List Nat) (s : Store) (idx : Nat),
      (m4BundleLoop ab al s us idx).data_hash_to_sidechain_proposal =
        s.data_hash_to_sidechain_proposal := by
  intro us
  induction us with
  | nil => intro s idx; rfl
  | cons v rest ih =>
      intro s idx
      rw [m4BundleLoop, ih, m4BundleStep_proposals]

/-- Helper: if every stored proposal's height is at most the block height,
dispatching one coinbase message cannot hit the age-subtraction underflow,
and the bound is preserved by the new store (M1 inserts at the current
height, M2 rewrites a proposal without changing its height, everything else
leaves the proposal table alone). -/
theorem connectMessage_heights (height : Nat) (s : Store) (m : CoinbaseMessage)
    (hs : proposalHeightsLE s height) :
    ∀ r, connectMessage height s m = r →
      r ≠ Except.error Err.underflow ∧
      ∀ s2, r = Except.ok s2 → proposalHeightsLE s2 height := by
  intro r hr
  cases m with
  | M1ProposeSidechain sn data =>
      rw [connectMessage] at hr
      split at hr
      · subst hr
        refine ⟨by simp, fun s2 h2 => ?_⟩
        obtain rfl : s = s2 := by simpa using h2
        exact hs
      · subst hr
        refine ⟨by simp, fun s2 h2 => ?_⟩
        obtain rfl : _ = s2 := (Except.ok.inj h2)
        intro e he
        rcases mem_tableInsert _ _ _ _ he with h3 | h3
        · subst h3
          simp
        · exact hs e h3
  | M2AckSidechain sn dh =>
      rw [connectMessage] at hr
      split at hr
      · subst hr
        refine ⟨by simp, fun s2 h2 => ?_⟩
        obtain rfl : s = s2 := by simpa using h2
        exact hs
      · rename_i p heq
        have hph : p.proposal_height ≤ height := hs (dh, p) (tableGet_mem _ _ _ heq)
        have hins : ∀ e ∈ tableInsert s.data_hash_to_sidechain_proposal dh
            { p with vote_count := (p.vote_count + 1) % 65536 },
            e.2.proposal_height ≤ height := by
          intro e he
          rcases mem_tableInsert _ _ _ _ he with h3 | h3
          · subst h3
            simpa using hph
          · exact hs e h3
        split at hr
        · dsimp only at hr
          split at hr
          · rename_i hlt
            exact absurd hlt (by simpa using hph)
          · split at hr
            · subst hr
              refine ⟨by simp, fun s2 h2 => ?_⟩
              obtain rfl : _ = s2 := (Except.ok.inj h2)
              intro e he
              exact hins e (mem_tableRemove _ _ _ he)
            · split at hr
              · split at hr
                · subst hr
                  refine ⟨by simp, fun s2 h2 => ?_⟩
                  obtain rfl : _ = s2 := (Except.ok.inj h2)
                  intro e he
                  exact hins e (mem_tableRemove _ _ _ he)
                · subst hr
                  refine ⟨by simp, fun s2 h2 => ?_⟩
                  obtain rfl : _ = s2 := (Except.ok.inj h2)
                  intro e he
                  exact hins e he
              · subst hr
                refine ⟨by simp, fun s2 h2 => ?_⟩
                obtain rfl : _ = s2 := (Except.ok.inj h2)
                intro e he
                exact hins e he
        · subst hr
          refine ⟨by simp, fun s2 h2 => ?_⟩
          obtain rfl : s = s2 := by simpa using h2
          exact hs
  | M3ProposeBundle sn txid =>
      rw [connectMessage] at hr
      split at hr
      · subst hr
        refine ⟨by simp, fun s2 h2 => ?_⟩
        obtain rfl : s = s2 := by simpa using h2
        exact hs
      · dsimp only at hr
        subst hr
        refine ⟨by simp, fun s2 h2 => ?_⟩
        obtain rfl : _ = s2 := (Except.ok.inj h2)
        exact hs
  | M4AckBundles m4 =>
      cases m4 with
      | LeadingBy50 =>
          rw [connectMessage] at hr
          subst hr
          exact ⟨by simp, by simp⟩
      | RepeatPrevious =>
          rw [connectMessage] at hr
          subst hr
          exact ⟨by simp, by simp⟩
      | OneByte upvotes =>
          rw [connectMessage] at hr
          subst hr
          refine ⟨by simp, fun s2 h2 => ?_⟩
          obtain rfl : _ = s2 := (Except.ok.inj h2)
          intro e he
          rw [m4BundleLoop_proposals] at he
          exact hs e he
      | TwoBytes upvotes =>
          rw [connectMessage] at hr
          subst hr
          refine ⟨by simp, fun s2 h2 => ?_⟩
          obtain rfl : _ = s2 := (Except.ok.inj h2)
          intro e he
          rw [m4BundleLoop_proposals] at he
          exact hs e he


/-- Helper: the coinbase output loop cannot hit the age-subtraction
underflow when every stored proposal's height is at most the block
height. -/
theorem connectOutputs_no_underflow (height : Nat) :
    ∀ (outs : List TxOut) (s : Store), proposalHeightsLE s height →
      connectOutputs height outs s ≠ Except.error Err.underflow := by
  intro outs
  induction outs with
  | nil =>
      intro s hs h
      rw [connectOutputs] at h
      simp at h
  | cons o rest ih =>
      intro s hs h
      rw [connectOutputs] at h
      split at h
      · simp at h
      · rename_i m hp
        split at h
        · rename_i e heq
          obtain rfl : e = Err.underflow := by simpa using h
          exact (connectMessage_heights height s m hs _ heq).1 rfl
        · rename_i s1 heq
          exact ih s1 ((connectMessage_heights height s m hs _ heq).2 s1 rfl) h

/-- C10: `connect_block` computes the proposal age with the unchecked u32
subtraction `height - proposal_height`.  Under the implicit precondition
that every stored proposal was recorded at or below the connected height —
which holds for height-ordered usage, since M1 records proposals at the
current height — the subtraction cannot underflow.  A call violating the
precondition (an M2 targeting a proposal recorded above the current height)
hits the arithmetic underflow (the modelled panic `Err.underflow`) rather
than returning an ordinary error. -/
theorem m2_age_underflow :
    (∀ (block : Block) (height : Nat) (s : Store),
       proposalHeightsLE s height →
       connect_block block height s ≠ Except.error Err.underflow) ∧
    (∀ (height : Nat) (s : Store) (sn : Nat) (dh : Hash256) (p : SidechainProposal),
       tableGet s.data_hash_to_sidechain_proposal dh = some p →
       p.sidechain_number = sn →
       height < p.proposal_height →
       connect_block (msgBlock [.M2AckSidechain sn dh]) height s = Except.error Err.underflow) := by
  constructor
  · intro block height s hs h
    rw [connect_block] at h
    split at h
    · simp at h
    · rename_i coinbase rest heq
      exact connectOutputs_no_underflow height coinbase.output s hs h
  · intro height s sn dh p hp hsn hlt
    have hcm : connectMessage height s (.M2AckSidechain sn dh) = Except.error Err.underflow := by
      rw [connectMessage, hp]
      simp [hsn, hlt]
    simp [connect_block, msgBlock, connectOutputs, parse_coinbase_script, hcm]

/-- C10 witness: a store holding a proposal recorded at height 100; applying
the M2 block at height 101 cannot underflow, while applying it at height 99
hits the underflow. -/
theorem m2_age_underflow_witness :
    (proposalHeightsLE
        { emptyStore with data_hash_to_sidechain_proposal :=
            [(sha256d [0xAA],
              { sidechain_number := 5, data := [0xAA], vote_count := 0, proposal_height := 100 })] }
        101 ∧
      connect_block (msgBlock [.M2AckSidechain 5 (sha256d [0xAA])]) 101
          { emptyStore with data_hash_to_sidechain_proposal :=
              [(sha256d [0xAA],
                { sidechain_number := 5, data := [0xAA], vote_count := 0, proposal_height := 100 })] } ≠
        Except.error Err.underflow) ∧
    (tableGet
        ({ emptyStore with data_hash_to_sidechain_proposal :=
            [(sha256d [0xAA],
              { sidechain_number := 5, data := [0xAA], vote_count := 0, proposal_height := 100 })] } :
          Store).data_hash_to_sidechain_proposal (sha256d [0xAA]) =
        some { sidechain_number := 5, data := [0xAA], vote_count := 0, proposal_height := 100 } ∧
      (99 : Nat) < 100 ∧
      connect_block (msgBlock [.M2AckSidechain 5 (sha256d [0xAA])]) 99
          { emptyStore with data_hash_to_sidechain_proposal :=
              [(sha256d [0xAA],
                { sidechain_number := 5, data := [0xAA], vote_count := 0, proposal_height := 100 })] } =
        Except.error Err.underflow) :=
  ⟨⟨by decide, m2_age_underflow.1 _ 101 _ (by decide)⟩,
   by decide, by decide,
   m2_age_underflow.2 99 _ 5 (sha256d [0xAA])
     { sidechain_number := 5, data := [0xAA], vote_count := 0, proposal_height := 100 }
     (by decide) (by decide) (by decide)⟩


/-- Helper: all upvotes fit in a byte — the `two_bytes` flag stays down. -/
theorem upvotesWidth_small :
    ∀ (us : List Nat), (∀ v ∈ us, v ≤ 255) → upvotesWidth us false = .ok false := by
  intro us
  induction us with
  | nil => intro h; rfl
  | cons v rest ih =>
      intro h
      have hv : v ≤ 255 := h v (by simp)
      rw [upvotesWidth]
      rw [if_neg (by omega)]
      rw [if_neg (by omega)]
      exact ih fun w hw => h w (by simp [hw])

/-- Helper: once the `two_bytes` flag is up it stays up, provided no value
panics. -/
theorem upvotesWidth_true :
    ∀ (us : List Nat), (∀ v ∈ us, v ≤ 65535) → upvotesWidth us true = .ok true := by
  intro us
  induction us with
  | nil => intro h; rfl
  | cons v rest ih =>
      intro h
      have hv : v ≤ 65535 := h v (by simp)
      rw [upvotesWidth]
      rw [if_neg (by omega)]
      simp only [ite_self]
      exact ih fun w hw => h w (by simp [hw])

/-- Helper: some upvote above a byte (and none above u16) raises the
`two_bytes` flag. -/
theorem upvotesWidth_two :
    ∀ (us : List Nat) (b : Bool), (∀ v ∈ us, v ≤ 65535) → (∃ v ∈ us, 255 < v) →
      upvotesWidth us b = .ok true := by
  intro us
  induction us with
  | nil =>
      intro b h hex
      simp at hex
  | cons v rest ih =>
      intro b h hex
      have hv : v ≤ 65535 := h v (by simp)
      rw [upvotesWidth]
      rw [if_neg (by omega)]
      by_cases hbig : v > 255
      · rw [if_pos hbig]
        exact upvotesWidth_true rest fun w hw => h w (by simp [hw])
      · rw [if_neg hbig]
        rcases hex with ⟨w, hw, hwv⟩
        rcases List.mem_cons.mp hw with rfl | hw2
        · omega
        · exact ih b (fun w2 hw2b => h w2 (by simp [hw2b])) ⟨w, hw2, hwv⟩

/-- Helper: any upvote above `u16::MAX` makes the width scan panic. -/
theorem upvotesWidth_panic :
    ∀ (us : List Nat) (b : Bool), (∃ v ∈ us, 65535 < v) →
      upvotesWidth us b = .error .upvoteTooLarge := by
  intro us
  induction us with
  | nil =>
      intro b hex
      simp at hex
  | cons v rest ih =>
      intro b hex
      rw [upvotesWidth]
      by_cases hbig : v > 65535
      · rw [if_pos hbig]
      · rw [if_neg hbig]
        rcases hex with ⟨w, hw, hwv⟩
        rcases List.mem_cons.mp hw with rfl | hw2
        · omega
        · exact ih _ ⟨w, hw2, hwv⟩

/-- Helper: with well-formed 32-byte hashes the M2 collection loop succeeds
and maps each entry to its message. -/
theorem ackSidechainMsgs_ok :
    ∀ (l : List AckSidechainReq), (∀ a ∈ l, a.data_hash.length = 32) →
      ackSidechainMsgs l =
        .ok (l.map fun a => CoinbaseMessage.M2AckSidechain (a.sidechain_number % 256) a.data_hash) := by
  intro l
  induction l with
  | nil => intro h; rfl
  | cons a rest ih =>
      intro h
      rw [ackSidechainMsgs]
      rw [if_pos (h a (by simp))]
      rw [ih fun w hw => h w (by simp [hw])]
      simp

/-- Helper: with well-formed 32-byte txids the M3 collection loop succeeds
and maps each entry to its message. -/
theorem proposeBundleMsgs_ok :
    ∀ (l : List ProposeBundleReq), (∀ p ∈ l, p.bundle_txid.length = 32) →
      proposeBundleMsgs l =
        .ok (l.map fun p => CoinbaseMessage.M3ProposeBundle (p.sidechain_number % 256) p.bundle_txid) := by
  intro l
  induction l with
  | nil => intro h; rfl
  | cons a rest ih =>
      intro h
      rw [proposeBundleMsgs]
      rw [if_pos (h a (by simp))]
      rw [ih fun w hw => h w (by simp [hw])]
      simp

/-- Helper: full evaluation of the assembler on an `Upvotes` request whose
width scan returns flag `tb`. -/
theorem get_coinbase_psbt_m4 (request : GetCoinbasePsbtRequest) (ab : AckBundlesReq)
    (tb : Bool)
    (hab : request.ack_bundles = some ab) (htag : ab.tag = .Upvotes)
    (h2 : ∀ a ∈ request.ack_sidechains, a.data_hash.length = 32)
    (h3 : ∀ p ∈ request.propose_bundles, p.bundle_txid.length = 32)
    (hw : upvotesWidth ab.upvotes false = .ok tb) :
    get_coinbase_psbt request =
      .ok { psbt :=
        { input := []
          output :=
            ((request.propose_sidechains.map fun p =>
                CoinbaseMessage.M1ProposeSidechain (p.sidechain_number % 256) p.data) ++
             (request.ack_sidechains.map fun a =>
                CoinbaseMessage.M2AckSidechain (a.sidechain_number % 256) a.data_hash) ++
             (request.propose_bundles.map fun pb =>
                CoinbaseMessage.M3ProposeBundle (pb.sidechain_number % 256) pb.bundle_txid) ++
             [CoinbaseMessage.M4AckBundles
                (if tb then .TwoBytes ab.upvotes else .OneByte ab.upvotes)]).map
              fun message => { value := 0, script_pubkey := encode_coinbase_message message } } } := by
  rw [get_coinbase_psbt]
  rw [ackSidechainMsgs_ok _ h2, proposeBundleMsgs_ok _ h3, hab]
  simp only [htag, hw]
  cases tb <;> simp [Bind.bind, Except.bind, pure, Except.pure]


/-- Helper: the assembler propagates the width-scan panic. -/
theorem get_coinbase_psbt_upvotes_panic (request : GetCoinbasePsbtRequest) (ab : AckBundlesReq)
    (hab : request.ack_bundles = some ab) (htag : ab.tag = .Upvotes)
    (h2 : ∀ a ∈ request.ack_sidechains, a.data_hash.length = 32)
    (h3 : ∀ p ∈ request.propose_bundles, p.bundle_txid.length = 32)
    (hw : upvotesWidth ab.upvotes false = .error .upvoteTooLarge) :
    get_coinbase_psbt request = .error .upvoteTooLarge := by
  rw [get_coinbase_psbt]
  rw [ackSidechainMsgs_ok _ h2, proposeBundleMsgs_ok _ h3, hab]
  simp only [htag, hw]
  simp [Bind.bind, Except.bind]

/-- C5 (amended): for a `get_coinbase_psbt` request carrying an `Upvotes`
ack_bundles entry (and well-formed 32-byte hash fields elsewhere in the
request): if every upvote value is at most 0xFF the emitted M4 message is
`OneByte`; if some value exceeds 0xFF and all are at most 0xFFFF it is
`TwoBytes`; and if any value exceeds 0xFFFF the handler panics with
`upvote too large` (modelled `RpcPanic.upvoteTooLarge`) — it does not
return a response, and it has no error-return path that would deliver a
request-validation error to the caller. -/
theorem get_coinbase_psbt_upvote_width (request : GetCoinbasePsbtRequest) (ab : AckBundlesReq)
    (hab : request.ack_bundles = some ab) (htag : ab.tag = .Upvotes)
    (h2 : ∀ a ∈ request.ack_sidechains, a.data_hash.length = 32)
    (h3 : ∀ p ∈ request.propose_bundles, p.bundle_txid.length = 32) :
    ((∀ v ∈ ab.upvotes, v ≤ 255) →
       ∃ resp, get_coinbase_psbt request = .ok resp ∧
         resp.psbt.output.getLast? =
           some { value := 0
                  script_pubkey := Script.coinbaseMsg (.M4AckBundles (.OneByte ab.upvotes)) }) ∧
    ((∃ v ∈ ab.upvotes, 255 < v) → (∀ v ∈ ab.upvotes, v ≤ 65535) →
       ∃ resp, get_coinbase_psbt request = .ok resp ∧
         resp.psbt.output.getLast? =
           some { value := 0
                  script_pubkey := Script.coinbaseMsg (.M4AckBundles (.TwoBytes ab.upvotes)) }) ∧
    ((∃ v ∈ ab.upvotes, 65535 < v) →
       get_coinbase_psbt request = .error .upvoteTooLarge) := by
  refine ⟨?_, ?_, ?_⟩
  · intro hsmall
    refine ⟨_, get_coinbase_psbt_m4 request ab false hab htag h2 h3
      (upvotesWidth_small _ hsmall), ?_⟩
    simp [encode_coinbase_message, List.map_append, List.getLast?_concat]
  · intro hex hbound
    refine ⟨_, get_coinbase_psbt_m4 request ab true hab htag h2 h3
      (upvotesWidth_two _ _ hbound hex), ?_⟩
    simp [encode_coinbase_message, List.map_append, List.getLast?_concat]
  · intro hex
    exact get_coinbase_psbt_upvotes_panic request ab hab htag h2 h3
      (upvotesWidth_panic _ _ hex)

/-- C5 counterexample: on upvotes `[0, 70000]` the handler's result is the
modelled `panic!(\"upvote too large\")`, not a request-validation error
returned to the caller — every constructor of `RpcPanic` is a process
panic, so the claim's `> 0xFFFF` case is refuted at this input. -/
theorem get_coinbase_psbt_overlarge_upvote_panics :
    get_coinbase_psbt
        { propose_sidechains := []
          ack_sidechains := []
          propose_bundles := []
          ack_bundles := some { tag := .Upvotes, upvotes := [0, 70000] } } =
      .error .upvoteTooLarge := by
  rfl

/-- C5 witness: scenario S6 — upvotes `[0,1,2]` produce a OneByte M4 and
upvotes `[0,1,300]` produce a TwoBytes M4. -/
theorem get_coinbase_psbt_upvote_width_witness :
    (∃ resp, get_coinbase_psbt
        { propose_sidechains := []
          ack_sidechains := []
          propose_bundles := []
          ack_bundles := some { tag := .Upvotes, upvotes := [0, 1, 2] } } = .ok resp ∧
      resp.psbt.output.getLast? =
        some { value := 0
               script_pubkey := Script.coinbaseMsg (.M4AckBundles (.OneByte [0, 1, 2])) }) ∧
    (∃ resp, get_coinbase_psbt
        { propose_sidechains := []
          ack_sidechains := []
          propose_bundles := []
          ack_bundles := some { tag := .Upvotes, upvotes := [0, 1, 300] } } = .ok resp ∧
      resp.psbt.output.getLast? =
        some { value := 0
               script_pubkey := Script.coinbaseMsg (.M4AckBundles (.TwoBytes [0, 1, 300])) }) :=
  ⟨(get_coinbase_psbt_upvote_width
      { propose_sidechains := []
        ack_sidechains := []
        propose_bundles := []
        ack_bundles := some { tag := .Upvotes, upvotes := [0, 1, 2] } }
      { tag := .Upvotes, upvotes := [0, 1, 2] }
      rfl rfl (by simp) (by simp)).1 (by decide),
   (get_coinbase_psbt_upvote_width
      { propose_sidechains := []
        ack_sidechains := []
        propose_bundles := []
        ack_bundles := some { tag := .Upvotes, upvotes := [0, 1, 300] } }
      { tag := .Upvotes, upvotes := [0, 1, 300] }
      rfl rfl (by simp) (by simp)).2.1 (by decide) (by decide)⟩

end Bip300
